/- A shallow embedding of the im2txt training-input pipeline
   (im2txt/train_utils/inputs.py): shard prefetching and queue configuration,
   sequence-example parsing, per-example flip selection, dynamic-pad batching,
   and the attributes-target derivation, with proofs of its key properties.

   Machine tensors are modelled as Lean lists: int64/int32 token tensors as
   `List Int`, int32 indicator tensors as `List Nat`, float32 tensors as
   `List Rat` (all values manipulated here are small integers, so no
   floating-point rounding is involved). Fallible tensor ops return Option. -/
import Mathlib

namespace InputsPipeline

/-- Semantics of tf.slice on a 1-D integer tensor with begin index b and
size: size -1 means all remaining elements from b; a begin/size combination
that falls outside the tensor is a runtime InvalidArgumentError, modelled as
none (tf.slice requires 0 <= begin and begin + size <= length, with
begin <= length when size = -1). -/
def tf_slice (input : List Int) (b size : Int) : Option (List Int) :=
  if b < 0 then none
  else if size < -1 then none
  else if size = -1 then
    if b ≤ (input.length : Int) then some (input.drop b.toNat) else none
  else if b + size ≤ (input.length : Int) then
    some ((input.drop b.toNat).take size.toNat)
  else none

/-- Semantics of tf.ones([n], dtype=int32): a negative dimension n is a
runtime error, modelled as none. -/
def tf_ones (n : Int) : Option (List Nat) :=
  if 0 ≤ n then some (List.replicate n.toNat 1) else none

/-- One iteration of the enqueue loop of batch_with_dynamic_pad
(inputs.py lines 201-208): input_length = caption_length - 1,
input_seq = tf.slice(caption, [0], input_length),
target_seq = tf.slice(caption, [1], input_length),
indicator = tf.ones(input_length, dtype=int32). -/
def splitCaption (caption : List Int) : Option (List Int × List Int × List Nat) :=
  let input_length : Int := (caption.length : Int) - 1
  match tf_slice caption 0 input_length, tf_slice caption 1 input_length,
      tf_ones input_length with
  | some input_seq, some target_seq, some indicator =>
      some (input_seq, target_seq, indicator)
  | _, _, _ => none

/-- The enqueue_list loop of batch_with_dynamic_pad: one
(image, (input_seq, target_seq, indicator)) tuple per (image, caption) pair. -/
def enqueue_list {α : Type} :
    List (α × List Int) → Option (List (α × (List Int × List Int × List Nat)))
  | [] => some []
  | (image, caption) :: rest =>
    match splitCaption caption with
    | none => none
    | some r =>
      match enqueue_list rest with
      | none => none
      | some rs => some ((image, r) :: rs)

/-- Right-pad a sequence with a pad value up to length n: the padding applied
by tf.train.batch_join with dynamic_pad=True, whose pad value is 0. -/
def padTo {α : Type} (pad : α) (n : Nat) (xs : List α) : List α :=
  xs ++ List.replicate (n - xs.length) pad

/-- Maximum of a list of naturals (0 for the empty list); used for the
dynamic-pad target length of each batched component. -/
def listMax (ns : List Nat) : Nat := ns.foldr max 0

/-- One row of the padded batch returned by batch_with_dynamic_pad. -/
structure Row where
  input_seq : List Int
  target_seq : List Int
  mask : List Nat
deriving DecidableEq

/-- batch_with_dynamic_pad (inputs.py lines 200-223): split every caption via
the enqueue loop, then batch with dynamic padding: each component is padded
on the right to the maximum length of that component over the collected
batch, with pad value 0. The images travel unchanged. -/
def batch_with_dynamic_pad {α : Type} (images_and_captions : List (α × List Int)) :
    Option (List α × List Row) :=
  match enqueue_list images_and_captions with
  | none => none
  | some eqs =>
    let p1 := listMax (eqs.map fun e => e.2.1.length)
    let p2 := listMax (eqs.map fun e => e.2.2.1.length)
    let p3 := listMax (eqs.map fun e => e.2.2.2.length)
    some (eqs.map Prod.fst,
      eqs.map fun e =>
        { input_seq := padTo 0 p1 e.2.1,
          target_seq := padTo 0 p2 e.2.2.1,
          mask := padTo 0 p3 e.2.2.2 })

/-- The padded length of a batch: the maximum of (caption length - 1) over
the captions collected into the batch. -/
def padded_len (captions : List (List Int)) : Nat :=
  listMax (captions.map fun c => c.length - 1)

lemma tf_slice_of_nonneg (input : List Int) (b size : Int) (hb : 0 ≤ b)
    (hs : 0 ≤ size) (h : b + size ≤ (input.length : Int)) :
    tf_slice input b size = some ((input.drop b.toNat).take size.toNat) := by
  unfold tf_slice
  rw [if_neg (by omega), if_neg (by omega), if_neg (by omega), if_pos h]

lemma splitCaption_nil : splitCaption ([] : List Int) = none := by decide

lemma splitCaption_cons (a : Int) (as : List Int) :
    splitCaption (a :: as) =
      some ((a :: as).take as.length, as, List.replicate as.length 1) := by
  have h1 : tf_slice (a :: as) 0 (((a :: as).length : Int) - 1) =
      some ((a :: as).take as.length) := by
    have hL : ((a :: as).length : Int) - 1 = (as.length : Int) := by
      simp [List.length_cons]
    rw [hL, tf_slice_of_nonneg _ _ _ le_rfl (Int.natCast_nonneg _)
      (by push_cast [List.length_cons]; omega)]
    simp
  have h2 : tf_slice (a :: as) 1 (((a :: as).length : Int) - 1) = some as := by
    have hL : ((a :: as).length : Int) - 1 = (as.length : Int) := by
      simp [List.length_cons]
    rw [hL, tf_slice_of_nonneg _ _ _ (by omega) (Int.natCast_nonneg _)
      (by push_cast [List.length_cons]; omega)]
    simp
  have h3 : tf_ones (((a :: as).length : Int) - 1) =
      some (List.replicate as.length 1) := by
    have hL : ((a :: as).length : Int) - 1 = (as.length : Int) := by
      simp [List.length_cons]
    rw [hL]
    unfold tf_ones
    rw [if_pos (Int.natCast_nonneg _)]
    simp
  simp only [splitCaption]
  rw [h1, h2, h3]

lemma splitCaption_lengths (c : List Int) (r : List Int × List Int × List Nat)
    (h : splitCaption c = some r) :
    r.1.length = c.length - 1 ∧ r.2.1.length = c.length - 1 ∧
      r.2.2.length = c.length - 1 := by
  cases c with
  | nil => rw [splitCaption_nil] at h; exact Option.noConfusion h
  | cons a as =>
    rw [splitCaption_cons] at h
    injection h with h
    subst h
    refine ⟨?_, ?_, ?_⟩
    · simp [List.length_cons]
    · simp [List.length_cons]
    · simp [List.length_cons]

lemma enqueue_list_getElem? {α : Type} (pairs : List (α × List Int)) :
    ∀ eqs, enqueue_list pairs = some eqs →
      ∀ i : Nat, eqs[i]? =
        pairs[i]?.bind fun p => (splitCaption p.2).map fun r => (p.1, r) := by
  induction pairs with
  | nil =>
    intro eqs h i
    simp only [enqueue_list] at h
    obtain rfl := Option.some.inj h
    simp
  | cons p rest ih =>
    obtain ⟨image, caption⟩ := p
    intro eqs h i
    cases hsc : splitCaption caption with
    | none =>
      simp only [enqueue_list, hsc] at h
      exact Option.noConfusion h
    | some r =>
      cases hrest : enqueue_list rest with
      | none =>
        simp only [enqueue_list, hsc, hrest] at h
        exact Option.noConfusion h
      | some rs =>
        simp only [enqueue_list, hsc, hrest] at h
        obtain rfl := Option.some.inj h
        cases i with
        | zero => simp [hsc]
        | succ j => simpa using ih rs hrest j

lemma enqueue_list_lengths {α : Type} (pairs : List (α × List Int)) :
    ∀ eqs, enqueue_list pairs = some eqs →
      eqs.map (fun e => e.2.1.length) = pairs.map (fun p => p.2.length - 1) ∧
      eqs.map (fun e => e.2.2.1.length) = pairs.map (fun p => p.2.length - 1) ∧
      eqs.map (fun e => e.2.2.2.length) = pairs.map (fun p => p.2.length - 1) := by
  induction pairs with
  | nil =>
    intro eqs h
    simp only [enqueue_list] at h
    obtain rfl := Option.some.inj h
    simp
  | cons p rest ih =>
    obtain ⟨image, caption⟩ := p
    intro eqs h
    cases hsc : splitCaption caption with
    | none =>
      simp only [enqueue_list, hsc] at h
      exact Option.noConfusion h
    | some r =>
      cases hrest : enqueue_list rest with
      | none =>
        simp only [enqueue_list, hsc, hrest] at h
        exact Option.noConfusion h
      | some rs =>
        simp only [enqueue_list, hsc, hrest] at h
        obtain rfl := Option.some.inj h
        obtain ⟨l1, l2, l3⟩ := ih rs hrest
        obtain ⟨s1, s2, s3⟩ := splitCaption_lengths caption r hsc
        refine ⟨?_, ?_, ?_⟩
        · simp [l1, s1]
        · simp [l2, s2]
        · simp [l3, s3]

lemma le_listMax {a : Nat} : ∀ {ns : List Nat}, a ∈ ns → a ≤ listMax ns := by
  intro ns
  induction ns with
  | nil => intro h; cases h
  | cons b bs ih =>
    intro h
    rcases List.mem_cons.mp h with rfl | h2
    · exact le_max_left _ _
    · exact le_trans (ih h2) (le_max_right _ _)

lemma padTo_length {α : Type} (pad : α) (n : Nat) (xs : List α)
    (h : xs.length ≤ n) : (padTo pad n xs).length = n := by
  simp only [padTo, List.length_append, List.length_replicate]
  omega

lemma padTo_getElem?_lt {α : Type} (pad : α) (n : Nat) (xs : List α) (i : Nat)
    (h : i < xs.length) : (padTo pad n xs)[i]? = xs[i]? := by
  rw [padTo, List.getElem?_append, if_pos h]

lemma padTo_getElem?_ge {α : Type} (pad : α) (n : Nat) (xs : List α) (i : Nat)
    (h1 : xs.length ≤ i) (h2 : i < n) : (padTo pad n xs)[i]? = some pad := by
  rw [padTo, List.getElem?_append_right h1, List.getElem?_replicate,
    if_pos (by omega)]

lemma padTo_sum (n : Nat) (xs : List Nat) : (padTo 0 n xs).sum = xs.sum := by
  simp [padTo, List.sum_replicate]

lemma padTo_nil {α : Type} (pad : α) (n : Nat) :
    padTo pad n ([] : List α) = List.replicate n pad := by
  simp [padTo]

lemma padded_len_map_snd {α : Type} (pairs : List (α × List Int)) :
    listMax (pairs.map fun p => p.2.length - 1) = padded_len (pairs.map Prod.snd) := by
  unfold padded_len
  rw [List.map_map]
  rfl

lemma batch_with_dynamic_pad_eq {α : Type} (pairs : List (α × List Int))
    (imgs : List α) (batch : List Row)
    (hb : batch_with_dynamic_pad pairs = some (imgs, batch)) :
    ∃ eqs, enqueue_list pairs = some eqs ∧
      batch = eqs.map (fun e =>
        { input_seq := padTo 0 (padded_len (pairs.map Prod.snd)) e.2.1,
          target_seq := padTo 0 (padded_len (pairs.map Prod.snd)) e.2.2.1,
          mask := padTo 0 (padded_len (pairs.map Prod.snd)) e.2.2.2 }) := by
  cases heq : enqueue_list pairs with
  | none =>
    simp only [batch_with_dynamic_pad, heq] at hb
    exact Option.noConfusion hb
  | some eqs =>
    simp only [batch_with_dynamic_pad, heq, Option.some.injEq, Prod.mk.injEq] at hb
    obtain ⟨l1, l2, l3⟩ := enqueue_list_lengths pairs eqs heq
    have hp := padded_len_map_snd pairs
    obtain ⟨h1, h2⟩ := hb
    refine ⟨eqs, rfl, ?_⟩
    rw [← h2]
    simp only [l1, l2, l3, hp]

/-- C1: for every caption of length L >= 2 entering the dynamic batcher, the
produced row is input_seq = caption[0:L-1] and target_seq = caption[1:L]
(each right-padded with zeros to the batch's padded length), and the sum of
that row's mask over the padded row is exactly L-1. -/
theorem dynamic_pad_shift_correct {α : Type} (pairs : List (α × List Int))
    (imgs : List α) (batch : List Row) (i : Nat) (img : α) (c : List Int)
    (hb : batch_with_dynamic_pad pairs = some (imgs, batch))
    (hc : pairs[i]? = some (img, c)) (hL : 2 ≤ c.length) :
    batch[i]? = some
      { input_seq := padTo 0 (padded_len (pairs.map Prod.snd)) (c.take (c.length - 1)),
        target_seq := padTo 0 (padded_len (pairs.map Prod.snd)) (c.drop 1),
        mask := padTo 0 (padded_len (pairs.map Prod.snd))
          (List.replicate (c.length - 1) 1) } ∧
    (padTo 0 (padded_len (pairs.map Prod.snd))
        (List.replicate (c.length - 1) 1)).sum = c.length - 1 := by
  obtain ⟨eqs, heq, rfl⟩ := batch_with_dynamic_pad_eq pairs imgs batch hb
  have hget := enqueue_list_getElem? pairs eqs heq i
  rw [hc] at hget
  cases c with
  | nil => simp at hL
  | cons a as =>
    simp only [Option.some_bind, splitCaption_cons, Option.map_some'] at hget
    refine ⟨?_, ?_⟩
    · rw [List.getElem?_map, hget]
      simp [List.length_cons]
    · rw [padTo_sum]
      simp [List.sum_replicate]

/-- Witness for C1: the singleton batch of caption [1,2,3,4,5] yields
input_seq=[1,2,3,4], target_seq=[2,3,4,5], mask=[1,1,1,1], mask sum 4. -/
theorem dynamic_pad_shift_correct_witness :
    ([{ input_seq := [1,2,3,4], target_seq := [2,3,4,5], mask := [1,1,1,1] }] :
        List Row)[0]? =
      some { input_seq := [1,2,3,4], target_seq := [2,3,4,5], mask := [1,1,1,1] } ∧
    ([1,1,1,1] : List Nat).sum = 4 := by
  have h := dynamic_pad_shift_correct [((), ([1,2,3,4,5] : List Int))] [()]
    [{ input_seq := [1,2,3,4], target_seq := [2,3,4,5], mask := [1,1,1,1] }]
    0 () [1,2,3,4,5] rfl rfl (by decide)
  exact ⟨h.1, h.2⟩

/-- C2: every produced row is padded to length max over the batch of (L-1);
row i's mask is 1 at positions below its own caption length minus one and 0
at every later position, and the padded positions of input_seqs and
target_seqs hold the pad value zero. -/
theorem dynamic_pad_mask_shape {α : Type} (pairs : List (α × List Int))
    (imgs : List α) (batch : List Row)
    (hb : batch_with_dynamic_pad pairs = some (imgs, batch)) :
    (∀ row ∈ batch,
        row.input_seq.length = padded_len (pairs.map Prod.snd) ∧
        row.target_seq.length = padded_len (pairs.map Prod.snd) ∧
        row.mask.length = padded_len (pairs.map Prod.snd)) ∧
    (∀ (i : Nat) (img : α) (c : List Int), pairs[i]? = some (img, c) →
      ∀ row : Row, batch[i]? = some row →
        (∀ j, j < c.length - 1 → row.mask[j]? = some 1) ∧
        (∀ j, c.length - 1 ≤ j → j < padded_len (pairs.map Prod.snd) →
          row.mask[j]? = some 0 ∧ row.input_seq[j]? = some 0 ∧
            row.target_seq[j]? = some 0)) := by
  obtain ⟨eqs, heq, rfl⟩ := batch_with_dynamic_pad_eq pairs imgs batch hb
  obtain ⟨l1, l2, l3⟩ := enqueue_list_lengths pairs eqs heq
  constructor
  · intro row hrow
    rw [List.mem_map] at hrow
    obtain ⟨e, he, rfl⟩ := hrow
    have hm1 : e.2.1.length ≤ padded_len (pairs.map Prod.snd) := by
      have hmem : e.2.1.length ∈ eqs.map (fun e => e.2.1.length) :=
        List.mem_map_of_mem _ he
      rw [l1] at hmem
      have h2 := le_listMax hmem
      rwa [padded_len_map_snd] at h2
    have hm2 : e.2.2.1.length ≤ padded_len (pairs.map Prod.snd) := by
      have hmem : e.2.2.1.length ∈ eqs.map (fun e => e.2.2.1.length) :=
        List.mem_map_of_mem _ he
      rw [l2] at hmem
      have h2 := le_listMax hmem
      rwa [padded_len_map_snd] at h2
    have hm3 : e.2.2.2.length ≤ padded_len (pairs.map Prod.snd) := by
      have hmem : e.2.2.2.length ∈ eqs.map (fun e => e.2.2.2.length) :=
        List.mem_map_of_mem _ he
      rw [l3] at hmem
      have h2 := le_listMax hmem
      rwa [padded_len_map_snd] at h2
    exact ⟨padTo_length _ _ _ hm1, padTo_length _ _ _ hm2, padTo_length _ _ _ hm3⟩
  · intro i img c hc row hrow
    have hget := enqueue_list_getElem? pairs eqs heq i
    rw [hc] at hget
    cases c with
    | nil =>
      rw [List.getElem?_map, hget] at hrow
      simp [splitCaption_nil] at hrow
    | cons a as =>
      simp only [Option.some_bind, splitCaption_cons, Option.map_some'] at hget
      rw [List.getElem?_map, hget] at hrow
      obtain rfl := Option.some.inj hrow
      have hP : as.length ≤ padded_len (pairs.map Prod.snd) := by
        have hmem : (a :: as).length - 1 ∈ pairs.map (fun p => p.2.length - 1) := by
          have h2 : (img, a :: as) ∈ pairs := List.getElem?_mem hc
          exact List.mem_map_of_mem _ h2
        simp only [List.length_cons, Nat.add_sub_cancel] at hmem
        have h2 := le_listMax hmem
        rwa [padded_len_map_snd] at h2
      constructor
      · intro j hj
        simp only [List.length_cons, Nat.add_sub_cancel] at hj
        have hjlen : j < (List.replicate as.length (1 : Nat)).length := by
          simpa using hj
        rw [padTo_getElem?_lt _ _ _ _ hjlen, List.getElem?_replicate, if_pos hj]
      · intro j hj1 hj2
        simp only [List.length_cons, Nat.add_sub_cancel] at hj1
        refine ⟨?_, ?_, ?_⟩
        · exact padTo_getElem?_ge _ _ _ _ (by simpa using hj1) hj2
        · refine padTo_getElem?_ge _ _ _ _ ?_ hj2
          simp only [List.length_take, List.length_cons]
          omega
        · exact padTo_getElem?_ge _ _ _ _ (by simpa using hj1) hj2

/-- Witness for C2: in the batch of captions [1,2,3,4,5] and [1,2,3], the
padded length is 4 and the row for [1,2,3] is input=[1,2,0,0],
target=[2,3,0,0], mask=[1,1,0,0], with zeros exactly at positions >= 2. -/
theorem dynamic_pad_mask_shape_witness :
    (Row.mk [1,2,0,0] [2,3,0,0] [1,1,0,0]).mask.length =
        padded_len [[1,2,3,4,5],[1,2,3]] ∧
    (Row.mk [1,2,0,0] [2,3,0,0] [1,1,0,0]).mask[1]? = some 1 ∧
    (Row.mk [1,2,0,0] [2,3,0,0] [1,1,0,0]).mask[2]? = some 0 ∧
    (Row.mk [1,2,0,0] [2,3,0,0] [1,1,0,0]).input_seq[2]? = some 0 ∧
    (Row.mk [1,2,0,0] [2,3,0,0] [1,1,0,0]).target_seq[3]? = some 0 := by
  have h := dynamic_pad_mask_shape
    [((), ([1,2,3,4,5] : List Int)), ((), [1,2,3])] [(), ()]
    [{ input_seq := [1,2,3,4], target_seq := [2,3,4,5], mask := [1,1,1,1] },
     { input_seq := [1,2,0,0], target_seq := [2,3,0,0], mask := [1,1,0,0] }] rfl
  obtain ⟨hshape, hrows⟩ := h
  have hm := hshape (Row.mk [1,2,0,0] [2,3,0,0] [1,1,0,0]) (by decide)
  have hr := hrows 1 () [1,2,3] rfl (Row.mk [1,2,0,0] [2,3,0,0] [1,1,0,0]) rfl
  refine ⟨hm.2.2, hr.1 1 (by decide), ?_, ?_, ?_⟩
  · exact (hr.2 2 (by decide) (by decide)).1
  · exact (hr.2 2 (by decide) (by decide)).2.1
  · exact (hr.2 3 (by decide) (by decide)).2.2

/-- Counterexample for C4: a caption of length 0 makes the dynamic batcher
fail rather than produce an all-zero row: input_length is -1, so
tf.slice(caption, [1], [-1]) has begin 1 on a length-0 tensor and
tf.ones([-1]) has a negative dimension, both runtime errors. -/
theorem empty_caption_batch_fails :
    batch_with_dynamic_pad [((), ([] : List Int))] = none := by decide

/-- C4 (amended): for every caption of length exactly 1 the dynamic batcher
does not fail and does not reject the example: it produces a row that is
entirely pad value zero (all-zero mask, hence no supervision signal); a
caption of length 0, however, makes the slice/ones ops fail. -/
theorem length_one_caption_row_all_zero {α : Type} (pairs : List (α × List Int))
    (imgs : List α) (batch : List Row) (i : Nat) (img : α) (c : List Int)
    (hb : batch_with_dynamic_pad pairs = some (imgs, batch))
    (hc : pairs[i]? = some (img, c)) (h1 : c.length = 1) :
    batch[i]? = some
      { input_seq := List.replicate (padded_len (pairs.map Prod.snd)) 0,
        target_seq := List.replicate (padded_len (pairs.map Prod.snd)) 0,
        mask := List.replicate (padded_len (pairs.map Prod.snd)) 0 } := by
  obtain ⟨eqs, heq, rfl⟩ := batch_with_dynamic_pad_eq pairs imgs batch hb
  have hget := enqueue_list_getElem? pairs eqs heq i
  rw [hc] at hget
  cases c with
  | nil => simp at h1
  | cons a as =>
    have has : as = [] := by
      simp only [List.length_cons] at h1
      simpa using h1
    subst has
    simp only [Option.some_bind, splitCaption_cons, Option.map_some'] at hget
    rw [List.getElem?_map, hget]
    simp [padTo_nil]

/-- Witness for C4 (amended): the caption [7] batched with [1,2,3] yields the
row input=[0,0], target=[0,0], mask=[0,0]. -/
theorem length_one_caption_row_all_zero_witness :
    ([{ input_seq := [0,0], target_seq := [0,0], mask := [0,0] },
      { input_seq := [1,2], target_seq := [2,3], mask := [1,1] }] :
        List Row)[0]? =
      some { input_seq := [0,0], target_seq := [0,0], mask := [0,0] } := by
  have h := length_one_caption_row_all_zero
    [((), ([7] : List Int)), ((), [1,2,3])] [(), ()]
    [{ input_seq := [0,0], target_seq := [0,0], mask := [0,0] },
     { input_seq := [1,2], target_seq := [2,3], mask := [1,1] }]
    0 () [7] rfl rfl (by decide)
  exact h

/-- The shard filename queue built by tf.train.string_input_producer:
the shard set it serves, whether it shuffles shard order, and its capacity. -/
structure ShardQueue where
  files : List String
  shuffle : Bool
  capacity : Nat
deriving DecidableEq

/-- The prefetch values queue of prefetch_input_data: random_dequeue is true
for tf.RandomShuffleQueue (randomized dequeue order) and false for
tf.FIFOQueue (first-in-first-out); min_after_dequeue is the minimum number of
records that must remain in the buffer for a record to be eligible for
dequeue (0 for a FIFOQueue, which has no such floor). -/
structure ValuesQueue where
  random_dequeue : Bool
  capacity : Nat
  min_after_dequeue : Nat
deriving DecidableEq

/-- Helper for split_commas: split a character list at every comma, in the
manner of Python str.split. -/
def split_commas_aux : List Char → List Char → List (List Char)
  | [], acc => [acc.reverse]
  | c :: cs, acc =>
    if c = ',' then acc.reverse :: split_commas_aux cs []
    else split_commas_aux cs (c :: acc)

/-- Python file_pattern.split(","): the comma-separated pieces of a string. -/
def split_commas (s : String) : List String :=
  (split_commas_aux s.toList []).map String.mk

/-- Shard discovery of prefetch_input_data (inputs.py lines 106-108): split
the comma-separated pattern and concatenate the filesystem glob of each
piece. The glob function stands for tf.gfile.Glob. -/
def data_files (glob : String → List String) (file_pattern : String) :
    List String :=
  ((split_commas file_pattern).map glob).flatten

/-- tf.train.string_input_producer: raises ValueError at graph construction
when given an empty file list, otherwise builds the shard queue. -/
def string_input_producer (files : List String) (shuffle : Bool)
    (capacity : Nat) : Except String ShardQueue :=
  if files = [] then
    Except.error "string_input_producer requires a non-null input tensor"
  else Except.ok { files := files, shuffle := shuffle, capacity := capacity }

/-- prefetch_input_data (inputs.py lines 73-142). On an empty shard set
tf.logging.fatal only logs (TF's open-source logging wrapper does not abort),
and construction then fails in string_input_producer, so either way an empty
shard set is an error before any record is read. Training: shuffled shard
queue of capacity 16 and a RandomShuffleQueue with capacity
values_per_shard * input_queue_capacity_factor + 100 * batch_size and
min_after_dequeue values_per_shard * input_queue_capacity_factor.
Evaluation: unshuffled shard queue of capacity 1 and a FIFOQueue with
capacity values_per_shard + 3 * batch_size. -/
def prefetch_input_data (glob : String → List String) (file_pattern : String)
    (is_training : Bool) (batch_size values_per_shard
    input_queue_capacity_factor : Nat) :
    Except String (ShardQueue × ValuesQueue) :=
  let dfs := data_files glob file_pattern
  if is_training then
    match string_input_producer dfs true 16 with
    | Except.error e => Except.error e
    | Except.ok filename_queue =>
      let min_queue_examples := values_per_shard * input_queue_capacity_factor
      Except.ok (filename_queue,
        { random_dequeue := true,
          capacity := min_queue_examples + 100 * batch_size,
          min_after_dequeue := min_queue_examples })
  else
    match string_input_producer dfs false 1 with
    | Except.error e => Except.error e
    | Except.ok filename_queue =>
      Except.ok (filename_queue,
        { random_dequeue := false,
          capacity := values_per_shard + 3 * batch_size,
          min_after_dequeue := 0 })

/-- C3: if expanding the comma-separated glob patterns yields an empty shard
set, pipeline construction fails at startup, before any queue exists to read
records from, in both training and evaluation mode. -/
theorem empty_shard_set_fails (glob : String → List String)
    (file_pattern : String) (is_training : Bool)
    (batch_size values_per_shard input_queue_capacity_factor : Nat)
    (hempty : data_files glob file_pattern = []) :
    prefetch_input_data glob file_pattern is_training batch_size
        values_per_shard input_queue_capacity_factor =
      Except.error "string_input_producer requires a non-null input tensor" := by
  cases is_training <;>
    simp [prefetch_input_data, string_input_producer, hempty]

/-- Witness for C3: a glob that matches nothing makes construction fail. -/
theorem empty_shard_set_fails_witness :
    prefetch_input_data (fun _ => []) "no-match" true 4 10 16 =
      Except.error "string_input_producer requires a non-null input tensor" :=
  empty_shard_set_fails (fun _ => []) "no-match" true 4 10 16 rfl

/-- C6: in training mode the values queue has capacity
values_per_shard * input_queue_capacity_factor + 100 * batch_size, dequeues
in randomized order only while more than
values_per_shard * input_queue_capacity_factor records would remain, and the
shard queue is shuffled with capacity 16. -/
theorem training_prefetch_config (glob : String → List String)
    (file_pattern : String)
    (batch_size values_per_shard input_queue_capacity_factor : Nat)
    (hfiles : data_files glob file_pattern ≠ []) :
    prefetch_input_data glob file_pattern true batch_size values_per_shard
        input_queue_capacity_factor =
      Except.ok
        ({ files := data_files glob file_pattern, shuffle := true,
           capacity := 16 },
         { random_dequeue := true,
           capacity := values_per_shard * input_queue_capacity_factor
             + 100 * batch_size,
           min_after_dequeue := values_per_shard * input_queue_capacity_factor }) := by
  simp [prefetch_input_data, string_input_producer, hfiles]

/-- Witness for C6: one shard, batch_size 4, values_per_shard 10, factor 16
gives a shuffled shard queue of capacity 16 and a random-dequeue buffer with
capacity 560 and floor 160. -/
theorem training_prefetch_config_witness :
    prefetch_input_data (fun _ => ["shard-00000"]) "shard-?????" true 4 10 16 =
      Except.ok
        ({ files := ["shard-00000"], shuffle := true, capacity := 16 },
         { random_dequeue := true, capacity := 560,
           min_after_dequeue := 160 }) := by
  have h := training_prefetch_config (fun _ => ["shard-00000"]) "shard-?????"
    4 10 16 (by decide)
  exact h

/-- C7: in evaluation mode shards are read in fixed (unshuffled) order and
the values queue is first-in-first-out with capacity exactly
values_per_shard + 3 * batch_size. -/
theorem eval_prefetch_config (glob : String → List String)
    (file_pattern : String)
    (batch_size values_per_shard input_queue_capacity_factor : Nat)
    (hfiles : data_files glob file_pattern ≠ []) :
    prefetch_input_data glob file_pattern false batch_size values_per_shard
        input_queue_capacity_factor =
      Except.ok
        ({ files := data_files glob file_pattern, shuffle := false,
           capacity := 1 },
         { random_dequeue := false,
           capacity := values_per_shard + 3 * batch_size,
           min_after_dequeue := 0 }) := by
  simp [prefetch_input_data, string_input_producer, hfiles]

/-- Witness for C7: one shard, batch_size 4, values_per_shard 10 gives an
unshuffled shard queue and a FIFO buffer of capacity 22. -/
theorem eval_prefetch_config_witness :
    prefetch_input_data (fun _ => ["shard-00000"]) "shard-?????" false 4 10 16 =
      Except.ok
        ({ files := ["shard-00000"], shuffle := false, capacity := 1 },
         { random_dequeue := false, capacity := 22, min_after_dequeue := 0 }) := by
  have h := eval_prefetch_config (fun _ => ["shard-00000"]) "shard-?????"
    4 10 16 (by decide)
  exact h

/-- The FLAGS configuration consumed by get_images_and_captions. -/
structure Flags where
  support_flip : Bool
  num_preprocess_threads : Nat
  batch_size : Nat
  values_per_input_shard : Nat
  input_queue_capacity_factor : Nat
  input_file_pattern : String
deriving DecidableEq

/-- One serialized SequenceExample record, seen through its parsed fields:
the encoded image bytes, the caption token sequence, and the flipped caption
token sequence. -/
structure Record where
  image : String
  caption : List Int
  flip_caption : List Int
deriving DecidableEq

/-- Modelled from the spec: the external image-processing collaborator
process(encoded_image_bytes, worker_id, flip, is_training) of
im2txt/train_utils/image_processing.py (not under src/) is a black box
producing a fixed-shape tensor; it is modelled freely, as a record of its
arguments, which is fully general for the claims about example pairing. -/
structure ProcessedImage where
  encoded_image : String
  thread_id : Nat
  flip : Bool
  is_training : Bool
deriving DecidableEq

/-- Modelled from the spec: simple_process_image, the opaque collaborator
call used by get_images_and_captions. -/
def simple_process_image (encoded_image : String) (thread_id : Nat)
    (flip is_training : Bool) : ProcessedImage :=
  { encoded_image := encoded_image, thread_id := thread_id, flip := flip,
    is_training := is_training }

/-- parse_sequence_example (inputs.py lines 29-70): extract the encoded
image and the caption, and additionally the flip caption when a
flip-caption feature name is supplied. -/
def parse_sequence_example (r : Record) (with_flip : Bool) :
    String × List Int × Option (List Int) :=
  if with_flip then (r.image, r.caption, some r.flip_caption)
  else (r.image, r.caption, none)

/-- get_images_and_captions (inputs.py lines 243-280), up to the enqueue list
it hands to the batcher: construct the prefetch queues, assert that the
number of preprocessing workers is even, and build one (image, caption) pair
per worker thread_id. records gives the record dequeued by each thread and
draws the value of that thread's tf.random_uniform([], 0, 1.0) node. With
flip support, the image is decoded twice (flipped and not) and tf.cond on
draw < 0.5 selects [flip_image, flip_caption] or [image, caption]. -/
def get_images_and_captions (glob : String → List String) (flags : Flags)
    (records : Nat → Record) (draws : Nat → Rat) (is_training : Bool) :
    Except String (List (ProcessedImage × List Int)) :=
  match prefetch_input_data glob flags.input_file_pattern is_training
      flags.batch_size flags.values_per_input_shard
      flags.input_queue_capacity_factor with
  | Except.error e => Except.error e
  | Except.ok _input_queue =>
    if flags.num_preprocess_threads % 2 = 0 then
      Except.ok ((List.range flags.num_preprocess_threads).map fun thread_id =>
        if flags.support_flip then
          let parsed := parse_sequence_example (records thread_id) true
          let flip_image := simple_process_image parsed.1 thread_id true
            is_training
          let image := simple_process_image parsed.1 thread_id false
            is_training
          if draws thread_id < 1/2 then (flip_image, parsed.2.2.getD [])
          else (image, parsed.2.1)
        else
          let parsed := parse_sequence_example (records thread_id) false
          (simple_process_image parsed.1 thread_id false is_training,
            parsed.2.1))
    else Except.error "AssertionError: num_preprocess_threads must be even"

/-- Whether pipeline construction succeeded (an Except.ok result). -/
def pipeline_accepts {α : Type} : Except String α → Bool
  | Except.ok _ => true
  | Except.error _ => false

/-- C5: with flip-support enabled, each worker's example is driven by its own
uniform draw: below 0.5 it is the flipped image paired with flip_caption,
otherwise the unflipped image paired with caption; image and caption of the
selected variant are always chosen together, never mixed across variants. -/
theorem flip_selection_coupled (glob : String → List String) (flags : Flags)
    (records : Nat → Record) (draws : Nat → Rat) (is_training : Bool)
    (examples : List (ProcessedImage × List Int))
    (hflip : flags.support_flip = true)
    (hok : get_images_and_captions glob flags records draws is_training =
      Except.ok examples)
    (tid : Nat) (htid : tid < flags.num_preprocess_threads) :
    examples[tid]? = some
      (if draws tid < 1/2 then
        (simple_process_image (records tid).image tid true is_training,
          (records tid).flip_caption)
      else
        (simple_process_image (records tid).image tid false is_training,
          (records tid).caption)) := by
  cases hpre : prefetch_input_data glob flags.input_file_pattern is_training
      flags.batch_size flags.values_per_input_shard
      flags.input_queue_capacity_factor with
  | error e =>
    simp only [get_images_and_captions, hpre] at hok
    exact Except.noConfusion hok
  | ok q =>
    by_cases hev : flags.num_preprocess_threads % 2 = 0
    · simp only [get_images_and_captions, hpre, if_pos hev] at hok
      obtain rfl := (Except.ok.inj hok).symm
      rw [List.getElem?_map, List.getElem?_range htid]
      simp [hflip, parse_sequence_example]
    · simp only [get_images_and_captions, hpre, if_neg hev] at hok
      exact Except.noConfusion hok

/-- Witness for C5: two workers, draw 0 on both: worker 0 selects the
flipped image together with the flipped caption [2,1]. -/
theorem flip_selection_coupled_witness :
    (((List.range 2).map fun tid =>
        if (0 : Rat) < 1/2 then
          (simple_process_image "jpegbytes" tid true true, ([2,1] : List Int))
        else (simple_process_image "jpegbytes" tid false true, [1,2]))[0]?) =
      some (simple_process_image "jpegbytes" 0 true true, [2,1]) := by
  have h := flip_selection_coupled (fun _ => ["shard-00000"])
    { support_flip := true, num_preprocess_threads := 2, batch_size := 4,
      values_per_input_shard := 10, input_queue_capacity_factor := 2,
      input_file_pattern := "shard-00000" }
    (fun _ => { image := "jpegbytes", caption := [1,2], flip_caption := [2,1] })
    (fun _ => (0 : Rat)) true
    ((List.range 2).map fun tid =>
      if (0 : Rat) < 1/2 then
        (simple_process_image "jpegbytes" tid true true, ([2,1] : List Int))
      else (simple_process_image "jpegbytes" tid false true, [1,2]))
    rfl rfl 0 (by decide)
  rw [h, if_pos (show (fun _ : Nat => (0 : Rat)) 0 < 1/2 by norm_num)]

/-- C9: with flip-support enabled and an odd number of preprocessing workers,
get_images_and_captions fails at configuration time with the assertion
error, before any example pair is built and hence before any batch. -/
theorem odd_workers_flip_fatal (glob : String → List String) (flags : Flags)
    (records : Nat → Record) (draws : Nat → Rat) (is_training : Bool)
    (_hflip : flags.support_flip = true)
    (hodd : flags.num_preprocess_threads % 2 = 1)
    (hfiles : data_files glob flags.input_file_pattern ≠ []) :
    get_images_and_captions glob flags records draws is_training =
      Except.error "AssertionError: num_preprocess_threads must be even" := by
  have hne : ¬ (flags.num_preprocess_threads % 2 = 0) := by omega
  cases is_training <;>
    simp [get_images_and_captions, prefetch_input_data, string_input_producer,
      hfiles, hne]

/-- Witness for C9: flip-support on and 3 workers gives the assertion
error. -/
theorem odd_workers_flip_fatal_witness :
    get_images_and_captions (fun _ => ["shard-00000"])
      { support_flip := true, num_preprocess_threads := 3, batch_size := 4,
        values_per_input_shard := 10, input_queue_capacity_factor := 2,
        input_file_pattern := "shard-00000" }
      (fun _ => { image := "jpegbytes", caption := [1,2], flip_caption := [2,1] })
      (fun _ => 0) true =
      Except.error "AssertionError: num_preprocess_threads must be even" :=
  odd_workers_flip_fatal (fun _ => ["shard-00000"])
    { support_flip := true, num_preprocess_threads := 3, batch_size := 4,
      values_per_input_shard := 10, input_queue_capacity_factor := 2,
      input_file_pattern := "shard-00000" }
    (fun _ => { image := "jpegbytes", caption := [1,2], flip_caption := [2,1] })
    (fun _ => 0) true rfl rfl (by decide)

/-- C10: the evenness assertion is unconditional: for every odd worker count
get_images_and_captions never returns ok, whatever the flip-support flag,
the mode, the records, or the shard set. -/
theorem odd_workers_never_ok (glob : String → List String) (flags : Flags)
    (records : Nat → Record) (draws : Nat → Rat) (is_training : Bool)
    (hodd : flags.num_preprocess_threads % 2 = 1) :
    pipeline_accepts
      (get_images_and_captions glob flags records draws is_training) = false := by
  have hne : ¬ (flags.num_preprocess_threads % 2 = 0) := by omega
  cases hpre : prefetch_input_data glob flags.input_file_pattern is_training
      flags.batch_size flags.values_per_input_shard
      flags.input_queue_capacity_factor with
  | error e => simp [get_images_and_captions, hpre, pipeline_accepts]
  | ok q => simp [get_images_and_captions, hpre, hne, pipeline_accepts]

/-- Witness for C10: 3 workers with flip-support off is still rejected. -/
theorem odd_workers_never_ok_witness :
    pipeline_accepts
      (get_images_and_captions (fun _ => ["shard-00000"])
        { support_flip := false, num_preprocess_threads := 3, batch_size := 4,
          values_per_input_shard := 10, input_queue_capacity_factor := 2,
          input_file_pattern := "shard-00000" }
        (fun _ => { image := "jpegbytes", caption := [1,2], flip_caption := [2,1] })
        (fun _ => 0) true) = false :=
  odd_workers_never_ok (fun _ => ["shard-00000"])
    { support_flip := false, num_preprocess_threads := 3, batch_size := 4,
      values_per_input_shard := 10, input_queue_capacity_factor := 2,
      input_file_pattern := "shard-00000" }
    (fun _ => { image := "jpegbytes", caption := [1,2], flip_caption := [2,1] })
    (fun _ => 0) true rfl

/-- Semantics of tf.unique on a 1-D tensor: the distinct values in order of
first occurrence. -/
def tf_unique : List Int → List Int
  | [] => []
  | x :: xs => x :: (tf_unique xs).filter (fun y => y != x)

/-- One row of tf.one_hot(id, depth): 1.0 at position id when
0 <= id < depth and 0.0 everywhere else (an id outside [0, depth) produces
an all-zero row). -/
def one_hot (id : Int) (depth : Nat) : List Rat :=
  (List.range depth).map fun (j : Nat) => if (j : Int) = id then (1 : Rat) else 0

/-- tf.reduce_sum(rows, axis=0) over a [k, depth] tensor: the elementwise
sum of the rows, starting from the zero vector of width depth. -/
def reduce_sum_rows (depth : Nat) (rows : List (List Rat)) : List Rat :=
  rows.foldr (fun r acc => List.zipWith (· + ·) r acc) (List.replicate depth 0)

/-- caption_to_attributes_target (inputs.py lines 225-228):
tf.reduce_sum(tf.one_hot(unique_ids, tf.shape(mask)[0]), axis=0) * mask.
Note the one_hot depth is tf.shape(mask)[0], the width of the mask
argument, not FLAGS.vocab_size. -/
def caption_to_attributes_target (caption : List Int) (mask : List Rat) :
    List Rat :=
  let unique_ids := tf_unique caption
  List.zipWith (· * ·)
    (reduce_sum_rows mask.length (unique_ids.map fun id => one_hot id mask.length))
    mask

/-- The inner function c2ml of caption_to_multi_labels (inputs.py lines
235-238): a multi-hot vector of width FLAGS.vocab_size over the distinct
ids of the caption, with no mask applied. -/
def c2ml (vocab_size : Nat) (caption : List Int) : List Rat :=
  reduce_sum_rows vocab_size
    ((tf_unique caption).map fun id => one_hot id vocab_size)

/-- caption_to_multi_labels (inputs.py lines 233-241): c2ml mapped over the
rows of the captions tensor. -/
def caption_to_multi_labels (vocab_size : Nat) (captions : List (List Int)) :
    List (List Rat) :=
  captions.map (c2ml vocab_size)

lemma mem_tf_unique (z : Int) (l : List Int) : z ∈ tf_unique l ↔ z ∈ l := by
  induction l with
  | nil => simp [tf_unique]
  | cons x xs ih =>
    simp only [tf_unique, List.mem_cons, List.mem_filter, bne_iff_ne]
    constructor
    · rintro (rfl | ⟨h1, h2⟩)
      · exact Or.inl rfl
      · exact Or.inr (ih.mp h1)
    · rintro (rfl | h1)
      · exact Or.inl rfl
      · by_cases hz : z = x
        · exact Or.inl hz
        · exact Or.inr ⟨ih.mpr h1, hz⟩

lemma tf_unique_nodup (l : List Int) : (tf_unique l).Nodup := by
  induction l with
  | nil => simp [tf_unique]
  | cons x xs ih =>
    rw [tf_unique, List.nodup_cons]
    refine ⟨?_, ih.filter _⟩
    intro hmem
    rw [List.mem_filter] at hmem
    exact absurd rfl (bne_iff_ne.mp hmem.2)

lemma zipWith_map_same {α β γ δ : Type} (f : β → γ → δ) (g : α → β)
    (h : α → γ) (l : List α) :
    List.zipWith f (l.map g) (l.map h) = l.map fun x => f (g x) (h x) := by
  induction l with
  | nil => simp
  | cons a as ih => simp [ih]

lemma replicate_eq_map_range (depth : Nat) :
    List.replicate depth (0 : Rat) = (List.range depth).map fun _ => (0 : Rat) := by
  rw [List.map_const', List.length_range]

lemma reduce_sum_one_hot (depth : Nat) (ids : List Int) (hnd : ids.Nodup) :
    reduce_sum_rows depth (ids.map fun id => one_hot id depth) =
      (List.range depth).map fun (j : Nat) =>
        if (j : Int) ∈ ids then (1 : Rat) else 0 := by
  induction ids with
  | nil =>
    show List.replicate depth (0 : Rat) = _
    rw [replicate_eq_map_range]
    simp
  | cons id ids2 ih =>
    obtain ⟨hnotmem, hnd2⟩ := List.nodup_cons.mp hnd
    show List.zipWith (· + ·) (one_hot id depth)
        (reduce_sum_rows depth (ids2.map fun i => one_hot i depth)) = _
    rw [ih hnd2, one_hot, zipWith_map_same]
    apply List.map_congr_left
    intro j hj
    by_cases hji : (j : Int) = id
    · rw [if_pos hji, if_neg (fun hm => hnotmem (hji ▸ hm)),
        if_pos (by rw [hji]; exact List.mem_cons_self id ids2)]
      norm_num
    · rw [if_neg hji]
      by_cases hmem : (j : Int) ∈ ids2
      · rw [if_pos hmem, if_pos (List.mem_cons_of_mem _ hmem)]
        norm_num
      · rw [if_neg hmem, if_neg (by simp [hji, hmem])]
        norm_num

lemma one_hot_length (id : Int) (depth : Nat) :
    (one_hot id depth).length = depth := by
  simp [one_hot]

lemma reduce_sum_rows_length (depth : Nat) (rows : List (List Rat))
    (h : ∀ r ∈ rows, r.length = depth) :
    (reduce_sum_rows depth rows).length = depth := by
  induction rows with
  | nil => simp [reduce_sum_rows]
  | cons r rs ih =>
    show (List.zipWith (· + ·) r (reduce_sum_rows depth rs)).length = depth
    rw [List.length_zipWith, h r (List.mem_cons_self r rs),
      ih (fun x hx => h x (List.mem_cons_of_mem _ hx))]
    simp

lemma caption_to_attributes_target_length (caption : List Int)
    (mask : List Rat) :
    (caption_to_attributes_target caption mask).length = mask.length := by
  unfold caption_to_attributes_target
  rw [List.length_zipWith, reduce_sum_rows_length]
  · simp
  · intro r hr
    rw [List.mem_map] at hr
    obtain ⟨id, _, rfl⟩ := hr
    exact one_hot_length id mask.length

/-- Counterexample for C8: with vocab_size = 5 and a mask row of padded
width 3, the attributes-target row for target sequence [2] has width 3 (the
width of the mask argument, tf.shape(mask)[0]), not vocab_size = 5;
vocab_size determines the width only in the separate caption_to_multi_labels
(second conjunct), which applies no mask. -/
theorem attributes_target_width_not_vocab :
    (caption_to_attributes_target [2] [1, 1, 1]).length ≠ 5 ∧
    (caption_to_multi_labels 5 [[2]]).map List.length = [5] := by
  constructor
  · rw [caption_to_attributes_target_length]
    decide
  · simp only [caption_to_multi_labels, List.map_cons, List.map_nil,
      List.cons.injEq, and_true]
    unfold c2ml
    apply reduce_sum_rows_length
    intro r hr
    rw [List.mem_map] at hr
    obtain ⟨id, _, rfl⟩ := hr
    exact one_hot_length id 5

/-- C8 (amended): for every row, the attributes-target derivation computes
the distinct token ids of the row (padding tokens not excluded), builds a
multi-hot vector whose width is the mask's length, i.e. the padded sequence
length rather than vocab_size, with 1.0 at each distinct id inside that
range and 0.0 elsewhere, and elementwise-multiplies it by mask. -/
theorem attributes_target_membership_mask (caption : List Int)
    (mask : List Rat) :
    caption_to_attributes_target caption mask =
      List.zipWith (· * ·)
        ((List.range mask.length).map fun (j : Nat) =>
          if (j : Int) ∈ caption then (1 : Rat) else 0)
        mask := by
  simp only [caption_to_attributes_target]
  rw [reduce_sum_one_hot _ _ (tf_unique_nodup caption)]
  congr 1
  apply List.map_congr_left
  intro j hj
  simp [mem_tf_unique]

end InputsPipeline
